import Mathlib

/-!
Verification of the Quick LCA dashboard (`src/lcawebv2.py`).

The computational core of the program is the block at lines 52-114:
column-presence checking, the Total Emission / Percent Emission formulas,
hotspot colouring, and the bar-chart row selection.  We embed that block
shallowly: pandas columns become Lean lists, the numeric cells become
rationals (the idealised real-number model of the floats; `np.round(x, 2)`
becomes exact round-half-even at two decimals), and pandas missing values
(NaN) become `Option ℚ` where the distinction matters.
-/

namespace QuickLCA

/-- A material row as consumed by the formula block (lines 66-70):
`Material`, the user-edited `Quantity`, and the `Emission Factor` column
copied from the source table for the selected impact category. -/
structure MaterialRow where
  material : String
  quantity : ℚ
  emissionFactor : ℚ
deriving Repr, DecidableEq

/-- A row of the locked results table (line 75): `Material`,
`Total Emission` and `Percent Emission`. -/
structure ResultRow where
  material : String
  totalEmission : ℚ
  percentEmission : ℚ
deriving Repr, DecidableEq

instance : Inhabited ResultRow := ⟨⟨"", 0, 0⟩⟩

/-- Scalar rounding as `numpy` does it: rounding of a scalar to the nearest integer: round half to even
(banker's rounding), which is what `np.round` uses. -/
def roundHalfEven (x : ℚ) : ℤ :=
  if x - ⌊x⌋ < 1/2 then ⌊x⌋
  else if 1/2 < x - ⌊x⌋ then ⌊x⌋ + 1
  else if ⌊x⌋ % 2 = 0 then ⌊x⌋ else ⌊x⌋ + 1

/-- Model of `np.round(x, 2)` (line 72): round to two decimal places, half to even. -/
def npRound2 (x : ℚ) : ℚ := (roundHalfEven (x * 100) : ℚ) / 100

/-- Line 70: `edited["Total Emission"] = edited["Quantity"] * edited["Emission Factor"]`,
per row. -/
def totalEmissionOf (r : MaterialRow) : ℚ := r.quantity * r.emissionFactor

/-- Line 71: `total_emission = edited["Total Emission"].sum()` — the grand
total, summed over the rows in input order. -/
def total_emission (rows : List MaterialRow) : ℚ :=
  (rows.map totalEmissionOf).sum

/-- Line 72, per row:
`np.round(100 * edited["Total Emission"] / total_emission, 2) if total_emission > 0 else 0`.
The guard does not depend on the row, so the column-level conditional of the
source is the same as this per-row conditional. -/
def percentOf (gt te : ℚ) : ℚ :=
  if 0 < gt then npRound2 (100 * te / gt) else 0

/-- The result row derived from one input row, given the grand total. -/
def resultRowOf (gt : ℚ) (m : MaterialRow) : ResultRow :=
  ⟨m.material, totalEmissionOf m, percentOf gt (totalEmissionOf m)⟩

/-- Lines 70-75: the whole aggregation — the results table (in input order)
together with the grand total. -/
def aggregate (rows : List MaterialRow) : List ResultRow × ℚ :=
  (rows.map (resultRowOf (total_emission rows)), total_emission rows)

/-- Lines 77-79, `pct_color`: the style applied to a `Percent Emission`
cell.  In the pipeline the cell is always a float (the `isinstance` check of
line 78 is true whenever the value can exceed 10), so the colour is red
exactly when the value exceeds 10, and the style string is emitted exactly
in that case. -/
def pct_color (val : ℚ) : String :=
  let color := if 10 < val then "red" else "#0074D9"
  if 10 < val then "background-color: " ++ color ++ "; color: white;" else ""

/-- Line 91, the element-wise form of `bar_colors`: red (`#FF4136`) for a
percentage strictly above 10, blue (`#0074D9`) otherwise. -/
def bar_color (v : ℚ) : String :=
  if 10 < v then "#FF4136" else "#0074D9"

/-- Line 91: `bar_colors = ["#FF4136" if v > 10 else "#0074D9" for v in percentages]`. -/
def bar_colors (percentages : List ℚ) : List String :=
  percentages.map bar_color

/-! Section: Column-presence check (lines 52-55) -/

/-- Lines 9-13: `impact_categories`. -/
def impact_categories : List String :=
  ["GWP100", "Acidification", "Eutrophication", "Photochemical Ozone", "Water Use",
   "Ecotoxicity", "Human Toxicity", "Resource Depletion (Fossil)", "Resource Depletion (Minerals)",
   "Fine Particulate", "Ozone Depletion", "Land Use", "Freshwater Depletion"]

/-- Line 52: `expected_cols = ['Material', 'Quantity', 'Unit'] + impact_categories`. -/
def expected_cols : List String :=
  ["Material", "Quantity", "Unit"] ++ impact_categories

/-- Line 53: `missing = [col for col in expected_cols if col not in df_input.columns]`,
with `cols` standing for `df_input.columns`. -/
def missing (cols : List String) : List String :=
  expected_cols.filter (fun col => decide (col ∉ cols))

/-- What the upload branch (lines 54-116) produces: either the error banner
listing the missing column names (line 55, no computation attempted), or the
computed results. -/
inductive UploadOutcome where
  | missingColumns (names : List String)
  | results (res : List ResultRow × ℚ)
deriving Repr, DecidableEq

/-- Lines 54-75: `if missing: st.error(...)` else run the aggregation.
Python truthiness of a list is non-emptiness. -/
def processUpload (cols : List String) (rows : List MaterialRow) : UploadOutcome :=
  if missing cols ≠ [] then .missingColumns (missing cols)
  else .results (aggregate rows)

/-! Section: The source table and the recomputation path (lines 57-70) -/

/-- A row of the uploaded source table `df_input`: the identity columns plus
one emission-factor cell per impact-category column (`factorOf c` models
`df_input[c]` at this row; the `missing` check of line 53 guarantees every
category column exists). -/
structure SourceRow where
  material : String
  quantity : ℚ
  unit : String
  factorOf : String → ℚ

/-- Line 66: `emission_factors = df_input[impact_choice]` — the factor
column is read from the originally loaded table, never from the editor. -/
def emission_factors (df_input : List SourceRow) (impact_choice : String) : List ℚ :=
  df_input.map (fun r => r.factorOf impact_choice)

/-- Lines 59-67: the edited table handed to the formula block.  The user may
have replaced the `Quantity` column (the editor exposes only
`Material | Quantity | Unit`, line 58), and line 67 then attaches
`Emission Factor` from the original `df_input`. -/
def withFactors (df_input : List SourceRow) (impact_choice : String)
    (editedQuantities : List ℚ) : List MaterialRow :=
  List.zipWith (fun s q => ⟨s.material, q, s.factorOf impact_choice⟩)
    df_input editedQuantities

/-! Section: Bar-chart construction (lines 84-114) -/

/-- Line 84: `nonzero = results[results["Total Emission"] > 0]` — the rows
kept for the chart, in their original order. -/
def nonzero (results : List ResultRow) : List ResultRow :=
  results.filter (fun r => decide (0 < r.totalEmission))

/-- Lines 87-88: `abbreviate` with its fixed `maxlen` of 18. -/
def abbreviate (name : String) : String :=
  if name.length ≤ 18 then name else name.take 18 ++ "..."

/-- Lines 89-114: the chart data — labels, percentages and bar colours —
produced only when `len(labels) > 0` (line 94); otherwise no chart. -/
def buildChart (results : List ResultRow) : Option (List String × List ℚ × List String) :=
  let nz := nonzero results
  let labels := nz.map (fun r => abbreviate r.material)
  let percentages := nz.map ResultRow.percentEmission
  if 0 < labels.length then some (labels, percentages, bar_colors percentages)
  else none

/-! Section: The pipeline on raw cells, pandas-style (for claim C5)

`pd.read_excel` turns an empty or non-numeric cell into NaN.  We model a
raw numeric cell as `Option ℚ` with `none` for NaN: multiplication
propagates NaN, and `Series.sum()` (line 71), whose `skipna` default is
true, silently skips NaN entries. -/

/-- A row as actually loaded: `Quantity` or the factor cell may be NaN. -/
structure RawRow where
  material : String
  quantity : Option ℚ
  emissionFactor : Option ℚ
deriving Repr, DecidableEq

/-- Element-wise product with NaN propagation (line 70 on raw cells). -/
def nanMul : Option ℚ → Option ℚ → Option ℚ
  | some a, some b => some (a * b)
  | _, _ => none

/-- Model of `Series.sum()` with `skipna=True` (line 71): NaN entries are skipped;
an all-NaN or empty column sums to 0. -/
def nanSum (cells : List (Option ℚ)) : ℚ :=
  (cells.filterMap id).sum

/-- Line 72 on a raw `Total Emission` cell: when the total is positive the
rounding formula propagates NaN; otherwise the scalar 0 is broadcast. -/
def rawPercent (gt : ℚ) (te : Option ℚ) : Option ℚ :=
  if 0 < gt then te.map (fun t => npRound2 (100 * t / gt)) else some 0

/-- Lines 70-75 on raw rows: the results table (material, `Total Emission`,
`Percent Emission`) plus the grand total.  The return type records that no
error value exists anywhere on this path. -/
def aggregateRaw (rows : List RawRow) : List (String × Option ℚ × Option ℚ) × ℚ :=
  let te := rows.map (fun r => nanMul r.quantity r.emissionFactor)
  let gt := nanSum te
  (List.zipWith (fun r t => (r.material, t, rawPercent gt t)) rows te, gt)

/-! Section: Concrete inputs (the spec's scenarios) used by the witnesses -/

/-- Scenario A of the spec: `[(SteelBeam, 10, 2.0), (Plastic, 5, 1.0)]`. -/
def demoA : List MaterialRow := [⟨"SteelBeam", 10, 2⟩, ⟨"Plastic", 5, 1⟩]

/-- Scenario B of the spec: `[(A, 0, 5.0), (B, 0, 3.0)]` — zero grand total. -/
def demoB : List MaterialRow := [⟨"A", 0, 5⟩, ⟨"B", 0, 3⟩]

/-- Scenario C of the spec: `[(A, 1, -2.0), (B, 1, 10.0)]` — a negative row. -/
def demoC : List MaterialRow := [⟨"A", 1, -2⟩, ⟨"B", 1, 10⟩]

/-- A two-row source table with constant factor columns. -/
def srcDemo : List SourceRow :=
  [⟨"SteelBeam", 10, "kg", fun _ => 2⟩, ⟨"Plastic", 5, "kg", fun _ => 1⟩]

/-! Section: Helper lemmas -/

/-- Round-half-even lands within half a unit of its argument. -/
theorem abs_roundHalfEven_sub_le (x : ℚ) : |(roundHalfEven x : ℚ) - x| ≤ 1/2 := by
  have h0 : (⌊x⌋ : ℚ) ≤ x := Int.floor_le x
  have h1 : x < ⌊x⌋ + 1 := Int.lt_floor_add_one x
  rw [abs_sub_le_iff]
  unfold roundHalfEven
  split_ifs <;> constructor <;> push_cast <;> linarith

/-- Rounding to two decimal places moves a value by at most `1/200`. -/
theorem abs_npRound2_sub_le (x : ℚ) : |npRound2 x - x| ≤ 1/200 := by
  have h := abs_roundHalfEven_sub_le (x * 100)
  have hx : npRound2 x - x = ((roundHalfEven (x * 100) : ℚ) - x * 100) / 100 := by
    unfold npRound2; ring
  have h100 : |(100 : ℚ)| = 100 := by norm_num
  rw [hx, abs_div, h100]
  linarith

theorem sum_map_mul_left_q {α : Type} (l : List α) (f : α → ℚ) (b : ℚ) :
    (l.map (fun x => b * f x)).sum = b * (l.map f).sum := by
  induction l with
  | nil => simp
  | cons a t ih => simp [ih, mul_add]

/-- Summing two pointwise-close columns keeps the sums within
`length * c` of each other. -/
theorem abs_sum_sub_sum_le {α : Type} (g h : α → ℚ) (c : ℚ) (l : List α) :
    (∀ x ∈ l, |g x - h x| ≤ c) →
      |(l.map g).sum - (l.map h).sum| ≤ l.length * c := by
  induction l with
  | nil => intro _; simp
  | cons a t ih =>
    intro hx
    have h1 := hx a (List.mem_cons_self a t)
    have h2 := ih (fun x hmem => hx x (List.mem_cons_of_mem a hmem))
    simp only [List.map_cons, List.sum_cons, List.length_cons]
    have heq : g a + (t.map g).sum - (h a + (t.map h).sum)
        = (g a - h a) + ((t.map g).sum - (t.map h).sum) := by ring
    rw [heq]
    push_cast
    calc |(g a - h a) + ((t.map g).sum - (t.map h).sum)|
        ≤ |g a - h a| + |(t.map g).sum - (t.map h).sum| := abs_add _ _
      _ ≤ c + t.length * c := add_le_add h1 h2
      _ = (t.length + 1) * c := by ring

/-- Before rounding, the percentage column sums to exactly 100 whenever the
grand total is nonzero. -/
theorem sum_exact_percent (rows : List MaterialRow) (hne : total_emission rows ≠ 0) :
    (rows.map (fun m => 100 * totalEmissionOf m / total_emission rows)).sum = 100 := by
  have hfun : (fun m : MaterialRow => 100 * totalEmissionOf m / total_emission rows)
      = (fun m => (100 / total_emission rows) * totalEmissionOf m) := by
    funext m; ring
  rw [hfun, sum_map_mul_left_q]
  have hsum : (rows.map totalEmissionOf).sum = total_emission rows := rfl
  rw [hsum]
  field_simp

/-- The factor column of the edited table is the factor column of the
source table, whatever quantities the user typed. -/
theorem withFactors_map_emissionFactor (df : List SourceRow) (choice : String) :
    ∀ q : List ℚ, q.length = df.length →
      (withFactors df choice q).map MaterialRow.emissionFactor
        = emission_factors df choice := by
  induction df with
  | nil =>
    intro q hq
    simp [withFactors, emission_factors]
  | cons s t ih =>
    intro q hq
    cases q with
    | nil => simp at hq
    | cons a qt =>
      have htl := ih qt (by simpa using hq)
      simp [withFactors, emission_factors] at htl
      simp [withFactors, emission_factors, htl]

/-! Section: The claims -/

/-- Claim C1: for every input sequence, each row's `Total Emission` is
`Quantity * EmissionFactor` with no clamping (a negative factor propagates
as a negative total, as the concrete one-row input shows), and the grand
total is the sum of the `Total Emission` column in input order. -/
theorem aggregate_totalEmission_grandTotal (rows : List MaterialRow) :
    (aggregate rows).1.map ResultRow.totalEmission
        = rows.map (fun m => m.quantity * m.emissionFactor)
    ∧ (aggregate rows).2 = (rows.map (fun m => m.quantity * m.emissionFactor)).sum
    ∧ (aggregate [⟨"A", 1, -2⟩]).1.map ResultRow.totalEmission = [-2] := by
  refine ⟨?_, ?_, ?_⟩
  · simp [aggregate, resultRowOf, totalEmissionOf, Function.comp]
  · rfl
  · norm_num [aggregate, resultRowOf, totalEmissionOf, total_emission, percentOf,
      npRound2, roundHalfEven]

/-- Claim C2: when the grand total is positive every row's
`Percent Emission` is `np.round(100 * TotalEmission / GrandTotal, 2)`;
otherwise every row's `Percent Emission` is 0. -/
theorem aggregate_percentEmission_policy (rows : List MaterialRow) :
    (0 < (aggregate rows).2 →
      (aggregate rows).1.map ResultRow.percentEmission
        = rows.map (fun m =>
            npRound2 (100 * (m.quantity * m.emissionFactor) / (aggregate rows).2)))
    ∧ ((aggregate rows).2 ≤ 0 →
      ∀ r ∈ (aggregate rows).1, r.percentEmission = 0) := by
  constructor
  · intro h
    have h' : 0 < total_emission rows := h
    simp [aggregate, resultRowOf, percentOf, totalEmissionOf, Function.comp, h']
  · intro h r hr
    have h' : ¬ 0 < total_emission rows := not_lt.mpr h
    simp only [aggregate, List.mem_map] at hr
    obtain ⟨m, _, rfl⟩ := hr
    simp [resultRowOf, percentOf, h']

/-- Witness for C2 at Scenario A (positive total) and Scenario B (zero
total). -/
theorem aggregate_percentEmission_policy_witness :
    (aggregate demoA).1.map ResultRow.percentEmission = [80, 20]
    ∧ (aggregate demoB).1.headI.percentEmission = 0 := by
  constructor
  · have h := (aggregate_percentEmission_policy demoA).1
      (by norm_num [aggregate, demoA, total_emission, totalEmissionOf])
    rw [h]
    norm_num [aggregate, demoA, total_emission, totalEmissionOf, npRound2, roundHalfEven]
  · refine (aggregate_percentEmission_policy demoB).2 ?_ _ ?_
    · norm_num [aggregate, demoB, total_emission, totalEmissionOf]
    · norm_num [aggregate, demoB, total_emission, totalEmissionOf, resultRowOf,
        percentOf, List.headI]

/-- Claim C7: the results table has one row per input row, in input order:
its length matches and its i-th entry is derived from the i-th input row. -/
theorem aggregate_order_preservation (rows : List MaterialRow) (i : ℕ) :
    (aggregate rows).1.length = rows.length
    ∧ ((aggregate rows).1)[i]? = (rows[i]?).map (resultRowOf (aggregate rows).2) := by
  constructor
  · simp [aggregate]
  · simp [aggregate]

/-- Claim C3: a result row is rendered as a hotspot — red table style
(line 78) and red bar (line 91) — exactly when its stored (rounded)
`Percent Emission` is strictly above 10; in particular a value of exactly
10 is not a hotspot, 10.01 is, a negative percentage is not, and a value
above 100 is. -/
theorem hotspot_iff_percent_gt_ten :
    (∀ rows : List MaterialRow, ∀ r ∈ (aggregate rows).1,
      (pct_color r.percentEmission ≠ "" ↔ 10 < r.percentEmission)
      ∧ (bar_color r.percentEmission = "#FF4136" ↔ 10 < r.percentEmission))
    ∧ pct_color 10 = "" ∧ bar_color 10 = "#0074D9"
    ∧ pct_color (1001/100) ≠ "" ∧ bar_color (1001/100) = "#FF4136"
    ∧ pct_color (-25) = "" ∧ bar_color 125 = "#FF4136" := by
  refine ⟨?_, ?_, ?_, ?_, ?_, ?_, ?_⟩
  · intro rows r _
    constructor
    · unfold pct_color
      split_ifs with h <;> simp [h]
    · unfold bar_color
      split_ifs with h <;> simp [h]
  · norm_num [pct_color]
  · norm_num [bar_color]
  · norm_num [pct_color]
    decide
  · norm_num [bar_color]
  · norm_num [pct_color]
  · norm_num [bar_color]

/-- Witness for C3 at Scenario C: the second row (percent 125) gets the red
bar, the first row (percent -25) gets no red table style. -/
theorem hotspot_iff_percent_gt_ten_witness :
    bar_color ((aggregate demoC).1.getLastI.percentEmission) = "#FF4136"
    ∧ pct_color ((aggregate demoC).1.headI.percentEmission) = "" := by
  have hlast : (aggregate demoC).1.getLastI = ⟨"B", 10, 125⟩ := by
    norm_num [aggregate, demoC, total_emission, totalEmissionOf, resultRowOf,
      percentOf, npRound2, roundHalfEven, List.getLastI]
  have hhead : (aggregate demoC).1.headI = ⟨"A", -2, -25⟩ := by
    norm_num [aggregate, demoC, total_emission, totalEmissionOf, resultRowOf,
      percentOf, npRound2, roundHalfEven, List.headI]
  have hmemL : (aggregate demoC).1.getLastI ∈ (aggregate demoC).1 := by
    rw [hlast]
    norm_num [aggregate, demoC, total_emission, totalEmissionOf, resultRowOf,
      percentOf, npRound2, roundHalfEven]
  have hmemH : (aggregate demoC).1.headI ∈ (aggregate demoC).1 := by
    rw [hhead]
    norm_num [aggregate, demoC, total_emission, totalEmissionOf, resultRowOf,
      percentOf, npRound2, roundHalfEven]
  constructor
  · refine ((hotspot_iff_percent_gt_ten.1 demoC _ hmemL).2).mpr ?_
    rw [hlast]
    norm_num
  · have h := (hotspot_iff_percent_gt_ten.1 demoC _ hmemH).1
    rw [hhead] at h ⊢
    by_contra hne
    exact absurd (h.mp hne) (by norm_num)

/-- Claim C4: a non-positive grand total is not a failure: the results
table still has one row per input, every `Percent Emission` is 0, and no
row is rendered as a hotspot (no red style, no red bar). -/
theorem degenerate_total_policy (rows : List MaterialRow)
    (hgt : (aggregate rows).2 ≤ 0) :
    (aggregate rows).1.length = rows.length
    ∧ (∀ r ∈ (aggregate rows).1,
        r.percentEmission = 0
        ∧ pct_color r.percentEmission = ""
        ∧ bar_color r.percentEmission ≠ "#FF4136") := by
  have h' : ¬ 0 < total_emission rows := not_lt.mpr hgt
  constructor
  · simp [aggregate]
  · intro r hr
    simp only [aggregate, List.mem_map] at hr
    obtain ⟨m, _, rfl⟩ := hr
    refine ⟨by simp [resultRowOf, percentOf, h'], ?_, ?_⟩
    · simp [resultRowOf, percentOf, h', pct_color]
    · simp [resultRowOf, percentOf, h', bar_color]

/-- Witness for C4 at Scenario B (grand total 0). -/
theorem degenerate_total_policy_witness :
    (aggregate demoB).1.length = demoB.length
    ∧ (aggregate demoB).1.headI.percentEmission = 0 := by
  have hgt : (aggregate demoB).2 ≤ 0 := by
    norm_num [aggregate, demoB, total_emission, totalEmissionOf]
  have h := degenerate_total_policy demoB hgt
  refine ⟨h.1, ?_⟩
  have hmem : (aggregate demoB).1.headI ∈ (aggregate demoB).1 := by
    norm_num [aggregate, demoB, total_emission, totalEmissionOf, resultRowOf,
      percentOf, List.headI]
  exact (h.2 _ hmem).1

/-- Claim C8: whenever the grand total is positive, the rounded
`Percent Emission` column sums to 100 up to `0.01` per row. -/
theorem percent_sum_near_100 (rows : List MaterialRow)
    (hgt : 0 < (aggregate rows).2) :
    |((aggregate rows).1.map ResultRow.percentEmission).sum - 100|
      ≤ (rows.length : ℚ) * (1/100) := by
  have hgt' : 0 < total_emission rows := hgt
  have hne : total_emission rows ≠ 0 := ne_of_gt hgt'
  have hmap : (aggregate rows).1.map ResultRow.percentEmission
      = rows.map (fun m => npRound2 (100 * totalEmissionOf m / total_emission rows)) := by
    simp [aggregate, resultRowOf, percentOf, Function.comp, hgt']
  have key := abs_sum_sub_sum_le
    (fun m => npRound2 (100 * totalEmissionOf m / total_emission rows))
    (fun m => 100 * totalEmissionOf m / total_emission rows)
    (1/200) rows (fun x _ => abs_npRound2_sub_le _)
  have hsum := sum_exact_percent rows hne
  rw [hsum] at key
  have hn : (0 : ℚ) ≤ rows.length := Nat.cast_nonneg _
  rw [hmap]
  linarith

/-- Witness for C8 at Scenario A: the rounded percentages sum to exactly
100, well within the bound. -/
theorem percent_sum_near_100_witness :
    0 < (aggregate demoA).2
    ∧ |((aggregate demoA).1.map ResultRow.percentEmission).sum - 100|
        ≤ (demoA.length : ℚ) * (1/100) := by
  have hgt : 0 < (aggregate demoA).2 := by
    norm_num [aggregate, demoA, total_emission, totalEmissionOf]
  exact ⟨hgt, percent_sum_near_100 demoA hgt⟩

/-- Claim C5 (behaviour of the code at the claim's failing input): on an
upload whose first row has a missing `Quantity`, the pipeline signals
nothing — it returns a complete results table for every input (the return
type of `aggregateRaw` has no error case and the length always matches),
and on the concrete input the NaN `Total Emission` of row A is silently
skipped by `.sum()`, giving grand total 6 and percentages computed from
row B alone. -/
theorem aggregateRaw_silent_on_missing :
    aggregateRaw [⟨"A", none, some 5⟩, ⟨"B", some 2, some 3⟩]
      = ([("A", none, none), ("B", some 6, some 100)], 6)
    ∧ ∀ rows : List RawRow, (aggregateRaw rows).1.length = rows.length := by
  constructor
  · norm_num [aggregateRaw, nanMul, nanSum, rawPercent, npRound2, roundHalfEven,
      List.filterMap_cons, List.filterMap_nil]
  · intro rows
    simp [aggregateRaw]

/-- Claim C6: when the uploaded table lacks at least one required column,
the upload branch reports the missing columns — the list contains exactly
the required names absent from the table, so every missing name is
listed — and the aggregation is never reached. -/
theorem missing_columns_abort (cols : List String) (rows : List MaterialRow)
    (c : String) (hc : c ∈ expected_cols) (hnc : c ∉ cols) :
    processUpload cols rows = .missingColumns (missing cols)
    ∧ (∀ d, d ∈ missing cols ↔ d ∈ expected_cols ∧ d ∉ cols)
    ∧ ∀ res, processUpload cols rows ≠ .results res := by
  have hmem : c ∈ missing cols := by
    simp [missing, hc, hnc]
  have hne : missing cols ≠ [] := by
    intro h
    rw [h] at hmem
    exact absurd hmem (List.not_mem_nil c)
  refine ⟨?_, ?_, ?_⟩
  · simp [processUpload, hne]
  · intro d
    simp [missing]
  · intro res h
    rw [processUpload, if_pos hne] at h
    exact UploadOutcome.noConfusion h

/-- Witness for C6: a table providing only `Material` and `Quantity`. -/
theorem missing_columns_abort_witness :
    processUpload ["Material", "Quantity"] demoA
      = .missingColumns (missing ["Material", "Quantity"])
    ∧ "Unit" ∈ missing ["Material", "Quantity"]
    ∧ "GWP100" ∈ missing ["Material", "Quantity"] := by
  have h := missing_columns_abort ["Material", "Quantity"] demoA "Unit"
    (by decide) (by decide)
  exact ⟨h.1, (h.2.1 "Unit").mpr (by decide), (h.2.1 "GWP100").mpr (by decide)⟩

/-- Claim C9: the `Emission Factor` column attached at line 67 is the
column of the originally loaded table for the selected category, whatever
`Quantity` column the user has typed: two different quantity edits yield
the same factor column, equal to the source's. -/
theorem emissionFactor_immutable (df : List SourceRow) (choice : String)
    (q₁ q₂ : List ℚ) (h₁ : q₁.length = df.length) (h₂ : q₂.length = df.length) :
    (withFactors df choice q₁).map MaterialRow.emissionFactor
        = emission_factors df choice
    ∧ (withFactors df choice q₂).map MaterialRow.emissionFactor
        = emission_factors df choice
    ∧ (withFactors df choice q₁).map MaterialRow.emissionFactor
        = (withFactors df choice q₂).map MaterialRow.emissionFactor := by
  have a₁ := withFactors_map_emissionFactor df choice q₁ h₁
  have a₂ := withFactors_map_emissionFactor df choice q₂ h₂
  exact ⟨a₁, a₂, a₁.trans a₂.symm⟩

/-- Witness for C9: two different quantity edits of the demo source table
leave the factor column at its loaded value `[2, 1]`. -/
theorem emissionFactor_immutable_witness :
    (withFactors srcDemo "GWP100" [3, 7]).map MaterialRow.emissionFactor
        = emission_factors srcDemo "GWP100"
    ∧ (withFactors srcDemo "GWP100" [3, 7]).map MaterialRow.emissionFactor
        = (withFactors srcDemo "GWP100" [10, 5]).map MaterialRow.emissionFactor
    ∧ emission_factors srcDemo "GWP100" = [2, 1] := by
  have h := emissionFactor_immutable srcDemo "GWP100" [3, 7] [10, 5] rfl rfl
  exact ⟨h.1, h.2.2, rfl⟩

/-- Claim C10: the chart keeps exactly the result rows with a strictly
positive `Total Emission`, in their original order (the kept rows form a
sublist); a row with non-positive total is excluded whatever its
percentage; and no chart is produced exactly when no row has a positive
total.  When a chart is produced, its labels and percentage series come
from those kept rows. -/
theorem chart_rows_positive_total (results : List ResultRow) :
    (nonzero results).Sublist results
    ∧ (∀ r, r ∈ nonzero results ↔ r ∈ results ∧ 0 < r.totalEmission)
    ∧ (buildChart results = none ↔ ∀ r ∈ results, r.totalEmission ≤ 0)
    ∧ (∀ c, buildChart results = some c →
        c.1 = (nonzero results).map (fun r => abbreviate r.material)
        ∧ c.2.1 = (nonzero results).map ResultRow.percentEmission
        ∧ c.2.2 = bar_colors ((nonzero results).map ResultRow.percentEmission)) := by
  refine ⟨List.filter_sublist results, ?_, ?_, ?_⟩
  · intro r
    simp [nonzero]
  · constructor
    · intro h r hr
      by_contra hpos
      have hr' : r ∈ nonzero results := by
        simp [nonzero, hr, lt_of_not_le hpos]
      rw [buildChart] at h
      split_ifs at h with hlen
      rw [List.length_map] at hlen
      exact absurd (List.length_pos.mpr (List.ne_nil_of_mem hr')) (by omega)
    · intro h
      have hnil : nonzero results = [] := by
        rw [nonzero, List.filter_eq_nil_iff]
        intro r hr
        simp only [decide_eq_true_eq, not_lt]
        exact h r hr
      simp [buildChart, hnil]
  · intro c hc
    rw [buildChart] at hc
    split_ifs at hc with hlen
    obtain rfl := Option.some_inj.mp hc
    exact ⟨rfl, rfl, rfl⟩

/-- Witness for C10 at the Scenario C results: row A (total -2, percent
-25) is excluded although its percentage is nonzero, row B is kept, and an
all-non-positive table yields no chart. -/
theorem chart_rows_positive_total_witness :
    (⟨"A", -2, -25⟩ : ResultRow) ∉ nonzero [⟨"A", -2, -25⟩, ⟨"B", 10, 125⟩]
    ∧ (⟨"B", 10, 125⟩ : ResultRow) ∈ nonzero [⟨"A", -2, -25⟩, ⟨"B", 10, 125⟩]
    ∧ buildChart [⟨"A", -2, -25⟩] = none := by
  refine ⟨?_, ?_, ?_⟩
  · intro h
    have := ((chart_rows_positive_total [⟨"A", -2, -25⟩, ⟨"B", 10, 125⟩]).2.1 _).mp h
    norm_num at this
  · exact ((chart_rows_positive_total [⟨"A", -2, -25⟩, ⟨"B", 10, 125⟩]).2.1 _).mpr
      (by norm_num)
  · exact (chart_rows_positive_total [⟨"A", -2, -25⟩]).2.2.1.mpr (by norm_num)

end QuickLCA
